import Mathlib

/-!
Verification of the goflo repository: FLO wire codec, HMAC authentication
primitives, the transfer-engine termination classification, the warmup
counting gate, and the server v1 session handler.

Bytes are modelled as natural numbers (a well-formed byte string has all
entries below 256, which is what the Go type byte guarantees).  Multi-byte
integers are little-endian as in the source.  Fallible operations return
Except values mirroring the Go (value, error) pairs.
-/

/-- Slice of a byte string: data[a:b] in the source. -/
def byteSlice (data : List Nat) (a b : Nat) : List Nat := (data.drop a).take (b - a)

/-- Single byte read: data[i] in the source (0 when out of range, which the
source rules out by its length checks). -/
def byteAt (data : List Nat) (i : Nat) : Nat := (data.drop i).headD 0

/-- Little-endian value of a byte string (binary.LittleEndian.UintNN). -/
def leUint (bs : List Nat) : Nat := bs.foldr (fun b acc => b + 256 * acc) 0

/-- Little-endian encoding of n into k bytes (binary.LittleEndian.PutUintNN). -/
def lePut : Nat → Nat → List Nat
  | 0, _ => []
  | k+1, n => n % 256 :: lePut k (n / 256)

theorem lePut_length (k n : Nat) : (lePut k n).length = k := by
  induction k generalizing n with
  | zero => rfl
  | succ k ih => simp [lePut, ih]

theorem leUint_lePut (k n : Nat) (h : n < 2 ^ (8 * k)) : leUint (lePut k n) = n := by
  induction k generalizing n with
  | zero => simp [lePut, leUint]; omega
  | succ k ih =>
    have hlt : n / 256 < 2 ^ (8 * k) := by
      have h256 : (256 : Nat) = 2 ^ 8 := by norm_num
      have : n < 2 ^ (8 * k) * 256 := by
        rw [h256, ← pow_add]
        have : 8 * k + 8 = 8 * (k + 1) := by ring
        rw [this]; exact h
      omega
    simp only [lePut, leUint, List.foldr_cons]
    have := ih (n / 256) hlt
    simp only [leUint] at this
    rw [this]
    omega

theorem lePut_leUint (bs : List Nat) (h : ∀ b ∈ bs, b < 256) :
    lePut bs.length (leUint bs) = bs := by
  induction bs with
  | nil => rfl
  | cons b bs ih =>
    have hb : b < 256 := h b (List.mem_cons_self b bs)
    have hrest : ∀ x ∈ bs, x < 256 := fun x hx => h x (List.mem_cons_of_mem b hx)
    simp only [List.length_cons, lePut, leUint, List.foldr_cons]
    have h1 : (b + 256 * bs.foldr (fun b acc => b + 256 * acc) 0) % 256 = b := by
      omega
    have h2 : (b + 256 * bs.foldr (fun b acc => b + 256 * acc) 0) / 256 =
        bs.foldr (fun b acc => b + 256 * acc) 0 := by omega
    rw [h1, h2]
    have := ih hrest
    simp only [leUint] at this
    rw [this]

theorem leUint_lt (bs : List Nat) (h : ∀ b ∈ bs, b < 256) :
    leUint bs < 2 ^ (8 * bs.length) := by
  induction bs with
  | nil => simp [leUint]
  | cons b bs ih =>
    have hb : b < 256 := h b (List.mem_cons_self b bs)
    have hrest := ih (fun x hx => h x (List.mem_cons_of_mem b hx))
    simp only [leUint, List.foldr_cons, List.length_cons] at *
    have : (2 : Nat) ^ (8 * (bs.length + 1)) = 2 ^ (8 * bs.length) * 256 := by
      rw [show 8 * (bs.length + 1) = 8 * bs.length + 8 by ring, pow_add]; norm_num
    rw [this]
    omega

/-- A natural-number bitwise or is zero exactly when both operands are. -/
theorem nat_lor_eq_zero (m n : Nat) : m ||| n = 0 ↔ m = 0 ∧ n = 0 := by
  constructor
  · intro h
    constructor
    · apply Nat.eq_of_testBit_eq
      intro i
      have := congrArg (fun x => x.testBit i) h
      simp only [Nat.testBit_or, Nat.zero_testBit, Bool.or_eq_false_iff] at this
      simp [this.1]
    · apply Nat.eq_of_testBit_eq
      intro i
      have := congrArg (fun x => x.testBit i) h
      simp only [Nat.testBit_or, Nat.zero_testBit, Bool.or_eq_false_iff] at this
      simp [this.2]
  · rintro ⟨rfl, rfl⟩; rfl

theorem foldl_lor_eq_zero (l : List Nat) (a : Nat) :
    l.foldl (fun x y => x ||| y) a = 0 ↔ a = 0 ∧ ∀ b ∈ l, b = 0 := by
  induction l generalizing a with
  | nil => simp
  | cons b bs ih =>
    simp only [List.foldl_cons, ih, nat_lor_eq_zero, List.mem_cons]
    constructor
    · rintro ⟨⟨ha, hb⟩, hrest⟩
      exact ⟨ha, fun x hx => hx.elim (fun h => h ▸ hb) (hrest x)⟩
    · rintro ⟨ha, hall⟩
      exact ⟨⟨ha, hall b (Or.inl rfl)⟩, fun x hx => hall x (Or.inr hx)⟩

deriving instance DecidableEq for Except

/-! ## Protocol errors (internal/protocol/errors.go) -/

inductive FloErr where
  | invalidMagic
  | invalidPacketSize
  | unsupportedVersion
  | incorrectType
  | unsupportedType
  | authFailed
  | invalidSessionID
  | invalidNonce
  | reusedNonce
  | unsupportedTransport
  | unsupportedSecurity
  | unsupportedDirection
  | invalidFlags
  | invalidChunkSize
  | invalidWarmup
  | invalidDuration
deriving DecidableEq, Repr

/-! ## Header and constants (internal/protocol/protocol.go, packets.go) -/

def MAGIC : List Nat := [70, 76, 79, 0]

def HeaderSize : Nat := 6

def FloVersion1 : Nat := 1

def TypeHello : Nat := 1
def TypeChallenge : Nat := 2
def TypeAnswer : Nat := 3
def TypeAck : Nat := 4
def TypeResult : Nat := 5

def TransportTCP : Nat := 1
def TransportUDP : Nat := 2
def TransportSCTP : Nat := 3

def SecurityNone : Nat := 0
def SecurityTLS : Nat := 1

def DirectionBidi : Nat := 0
def DirectionUpload : Nat := 1
def DirectionDownload : Nat := 2

def AuthNone : Nat := 0
def AuthHMAC : Nat := 1

def AckOK : Nat := 0
def AckInvalidVersion : Nat := 1
def AckInvalidHello : Nat := 2
def AckAuthFailed : Nat := 3
def AckBusy : Nat := 4

structure Header where
  magic : List Nat
  version : Nat
  type : Nat
deriving DecidableEq, Repr

/-- UnmarshalHeader parses raw bytes into a Header struct
(internal/protocol/protocol.go). -/
def UnmarshalHeader (data : List Nat) : Except FloErr Header :=
  if data.length < HeaderSize then .error .invalidPacketSize
  else
    let magic := data.take 4
    if magic ≠ MAGIC then .error .invalidMagic
    else .ok { magic := magic, version := byteAt data 4, type := byteAt data 5 }

/-- Header with the fixed magic, version 1 and the given type
(packets/v1/header.go createHeader). -/
def createHeader (pktType : Nat) : Header :=
  { magic := MAGIC, version := FloVersion1, type := pktType }

/-! ## HELLO packet (packets/v1 pkt_hello) -/

structure PktHello where
  header : Header
  sessionID : List Nat
  transport : Nat
  security : Nat
  direction : Nat
  flags : Nat
  chunkSize : Nat
  durationMS : Nat
  warmupMS : Nat
  nonceClient : List Nat
deriving DecidableEq, Repr

def PktHelloSize : Nat := 63

def UnmarshalHello (data : List Nat) : Except FloErr PktHello :=
  if data.length ≠ PktHelloSize then .error .invalidPacketSize
  else match UnmarshalHeader (byteSlice data 0 HeaderSize) with
  | .error e => .error e
  | .ok header =>
    if header.type ≠ TypeHello then .error .incorrectType
    else
      let sessionID := byteSlice data 6 22
      let transport := byteAt data 22
      if ¬ (transport = TransportTCP ∨ transport = TransportUDP ∨
            transport = TransportSCTP) then .error .unsupportedTransport
      else
        let security := byteAt data 23
        if ¬ (security = SecurityNone ∨ security = SecurityTLS) then
          .error .unsupportedSecurity
        else
          let direction := byteAt data 24
          if ¬ (direction = DirectionBidi ∨ direction = DirectionUpload ∨
                direction = DirectionDownload) then .error .unsupportedDirection
          else
            let flags := leUint (byteSlice data 25 27)
            if flags ≠ 0 then .error .invalidFlags
            else
              let chunkSize := leUint (byteSlice data 27 31)
              if chunkSize < 10 ∨ chunkSize > 10000000 then .error .invalidChunkSize
              else
                let durationMS := leUint (byteSlice data 31 39)
                if durationMS < 1000 then .error .invalidDuration
                else
                  let warmupMS := leUint (byteSlice data 39 47)
                  let nonceClient := byteSlice data 47 63
                  if nonceClient.foldl (fun x y => x ||| y) 0 = 0 then
                    .error .invalidNonce
                  else
                    .ok { header := header, sessionID := sessionID,
                          transport := transport, security := security,
                          direction := direction, flags := flags,
                          chunkSize := chunkSize, durationMS := durationMS,
                          warmupMS := warmupMS, nonceClient := nonceClient }

/-- Byte image written by PktHello.Marshal once the magic check has passed. -/
def PktHello.encodeBytes (p : PktHello) : List Nat :=
  p.header.magic ++ [p.header.version] ++ [p.header.type] ++ p.sessionID ++
  [p.transport] ++ [p.security] ++ [p.direction] ++ lePut 2 p.flags ++
  lePut 4 p.chunkSize ++ lePut 8 p.durationMS ++ lePut 8 p.warmupMS ++
  p.nonceClient

def PktHello.Marshal (p : PktHello) : Except FloErr (List Nat) :=
  if p.header.magic ≠ MAGIC then .error .invalidMagic
  else .ok p.encodeBytes

/-! ## CHALLENGE packet (packets/v1 pkt_challenge) -/

structure PktChallenge where
  header : Header
  sessionID : List Nat
  authMethod : Nat
  nonceServer : List Nat
deriving DecidableEq, Repr

def PktChallengeSize : Nat := 39

def UnmarshalChallenge (data : List Nat) : Except FloErr PktChallenge :=
  if data.length ≠ PktChallengeSize then .error .invalidPacketSize
  else match UnmarshalHeader (byteSlice data 0 HeaderSize) with
  | .error e => .error e
  | .ok header =>
    if header.type ≠ TypeChallenge then .error .incorrectType
    else .ok { header := header, sessionID := byteSlice data 6 22,
               authMethod := byteAt data 22, nonceServer := byteSlice data 23 39 }

def PktChallenge.encodeBytes (p : PktChallenge) : List Nat :=
  p.header.magic ++ [p.header.version] ++ [p.header.type] ++ p.sessionID ++
  [p.authMethod] ++ p.nonceServer

def PktChallenge.Marshal (p : PktChallenge) : Except FloErr (List Nat) :=
  if p.header.magic ≠ MAGIC then .error .invalidMagic
  else .ok p.encodeBytes

/-! ## ANSWER packet (packets/v1/pkt_answer.go) -/

structure PktAnswer where
  header : Header
  sessionID : List Nat
  authHash : List Nat
deriving DecidableEq, Repr

def PktAnswerSize : Nat := 54

def UnmarshalAnswer (data : List Nat) : Except FloErr PktAnswer :=
  if data.length ≠ PktAnswerSize then .error .invalidPacketSize
  else match UnmarshalHeader (byteSlice data 0 HeaderSize) with
  | .error e => .error e
  | .ok header =>
    if header.type ≠ TypeAnswer then .error .incorrectType
    else .ok { header := header, sessionID := byteSlice data 6 22,
               authHash := byteSlice data 22 54 }

def PktAnswer.encodeBytes (p : PktAnswer) : List Nat :=
  p.header.magic ++ [p.header.version] ++ [p.header.type] ++ p.sessionID ++
  p.authHash

def PktAnswer.Marshal (p : PktAnswer) : Except FloErr (List Nat) :=
  if p.header.magic ≠ MAGIC then .error .invalidMagic
  else .ok p.encodeBytes

/-! ## ACK packet (packets/v1/pkt_ack.go) -/

structure PktAck where
  header : Header
  sessionID : List Nat
  auth : Nat
  code : Nat
deriving DecidableEq, Repr

def PktAckSize : Nat := 24

def UnmarshalAck (data : List Nat) : Except FloErr PktAck :=
  if data.length ≠ PktAckSize then .error .invalidPacketSize
  else match UnmarshalHeader (byteSlice data 0 HeaderSize) with
  | .error e => .error e
  | .ok header =>
    if header.type ≠ TypeAck then .error .incorrectType
    else .ok { header := header, sessionID := byteSlice data 6 22,
               auth := byteAt data 22, code := byteAt data 23 }

def PktAck.encodeBytes (p : PktAck) : List Nat :=
  p.header.magic ++ [p.header.version] ++ [p.header.type] ++ p.sessionID ++
  [p.auth] ++ [p.code]

def PktAck.Marshal (p : PktAck) : Except FloErr (List Nat) :=
  if p.header.magic ≠ MAGIC then .error .invalidMagic
  else .ok p.encodeBytes

/-! ## RESULT packet (packets/v1 pkt_result) -/

structure PktResult where
  header : Header
  sessionID : List Nat
  bytesSent : Nat
  bytesReceived : Nat
deriving DecidableEq, Repr

def PktResultSize : Nat := 38

def UnmarshalResult (data : List Nat) : Except FloErr PktResult :=
  if data.length ≠ PktResultSize then .error .invalidPacketSize
  else match UnmarshalHeader (byteSlice data 0 HeaderSize) with
  | .error e => .error e
  | .ok header =>
    if header.type ≠ TypeResult then .error .incorrectType
    else .ok { header := header, sessionID := byteSlice data 6 22,
               bytesSent := leUint (byteSlice data 22 30),
               bytesReceived := leUint (byteSlice data 30 38) }

def PktResult.encodeBytes (p : PktResult) : List Nat :=
  p.header.magic ++ [p.header.version] ++ [p.header.type] ++ p.sessionID ++
  lePut 8 p.bytesSent ++ lePut 8 p.bytesReceived

def PktResult.Marshal (p : PktResult) : Except FloErr (List Nat) :=
  if p.header.magic ≠ MAGIC then .error .invalidMagic
  else .ok p.encodeBytes

/-! Sanity checks on concrete packets. -/

def sampleSid : List Nat := [1,2,3,4,5,6,7,8,9,10,11,12,13,14,15,16]
def sampleNonce : List Nat := [9,9,9,9,9,9,9,9,9,9,9,9,9,9,9,9]

def sampleHello : PktHello :=
  { header := createHeader TypeHello, sessionID := sampleSid,
    transport := TransportTCP, security := SecurityNone,
    direction := DirectionBidi, flags := 0, chunkSize := 1024,
    durationMS := 5000, warmupMS := 1000, nonceClient := sampleNonce }

example : (sampleHello.encodeBytes).length = 63 := by decide
example : UnmarshalHello sampleHello.encodeBytes = .ok sampleHello := by decide

/-! ## Helper lemmas for slices of encoded packets -/

theorem byteSlice_split (data : List Nat) (a b c : Nat) (hab : a ≤ b) (hbc : b ≤ c) :
    byteSlice data a c = byteSlice data a b ++ byteSlice data b c := by
  unfold byteSlice
  rw [show c - a = (b - a) + (c - b) by omega, List.take_add, List.drop_drop,
      show a + (b - a) = b by omega]

theorem byteSlice_zero (data : List Nat) (n : Nat) :
    byteSlice data 0 n = data.take n := by
  unfold byteSlice
  rw [List.drop_zero]
  rfl

theorem headD_take (l : List Nat) (n : Nat) (hn : 0 < n) (d : Nat) :
    (l.take n).headD d = l.headD d := by
  cases l with
  | nil => simp
  | cons x xs => cases n with
    | zero => omega
    | succ n => simp

theorem byteAt_take (data : List Nat) (n i : Nat) (h : i < n) :
    byteAt (data.take n) i = byteAt data i := by
  unfold byteAt
  rw [List.drop_take]
  exact headD_take _ _ (by omega) _

theorem byteSlice_singleton (data : List Nat) (a b : Nat) (hb : b = a + 1)
    (ha : a < data.length) : byteSlice data a b = [byteAt data a] := by
  subst hb
  unfold byteSlice byteAt
  rw [show a + 1 - a = 1 by omega]
  have hne : data.drop a ≠ [] := by
    rw [Ne, List.drop_eq_nil_iff]
    omega
  rcases hd : data.drop a with _ | ⟨x, xs⟩
  · exact absurd hd hne
  · simp

theorem mem_byteSlice (data : List Nat) {x a b : Nat} (h : x ∈ byteSlice data a b) :
    x ∈ data := by
  unfold byteSlice at h
  exact List.mem_of_mem_drop (List.mem_of_mem_take h)

theorem byteSlice_length (data : List Nat) (a b : Nat) (hab : a ≤ b)
    (hb : b ≤ data.length) : (byteSlice data a b).length = b - a := by
  unfold byteSlice
  rw [List.length_take, List.length_drop]
  omega

theorem lePut_leUint_slice (data : List Nat) (a b k : Nat) (hk : b - a = k)
    (hab : a ≤ b) (hb : b ≤ data.length) (hbytes : ∀ x ∈ data, x < 256) :
    lePut k (leUint (byteSlice data a b)) = byteSlice data a b := by
  have hlen : (byteSlice data a b).length = k := by
    rw [byteSlice_length data a b hab hb, hk]
  have := lePut_leUint (byteSlice data a b) (fun x hx => hbytes x (mem_byteSlice data hx))
  rw [hlen] at this
  exact this

theorem take4_of_take6 (data : List Nat) : (data.take 6).take 4 = data.take 4 := by
  rw [List.take_take]
  norm_num

theorem take_length_of_eq (l : List Nat) (n : Nat) (h : l.length = n) :
    l.take n = l := by
  rw [← h]
  exact List.take_length l

theorem eq_explicit_of_length16 (l : List Nat) (h : l.length = 16) :
    l = [l.getD 0 0, l.getD 1 0, l.getD 2 0, l.getD 3 0, l.getD 4 0, l.getD 5 0,
         l.getD 6 0, l.getD 7 0, l.getD 8 0, l.getD 9 0, l.getD 10 0, l.getD 11 0,
         l.getD 12 0, l.getD 13 0, l.getD 14 0, l.getD 15 0] := by
  apply List.ext_getElem
  · simp [h]
  · intro i h1 h2
    simp only [h] at h1
    interval_cases i <;>
      simp [List.getD, List.getElem?_eq_getElem, h]

/-! ## Wire-validity predicates: exactly the conditions the decoders check,
together with the length and width facts the Go array and integer types give
by construction. -/

def HelloValid (p : PktHello) : Prop :=
  p.header.magic = MAGIC ∧ p.header.type = TypeHello ∧
  p.sessionID.length = 16 ∧
  (p.transport = TransportTCP ∨ p.transport = TransportUDP ∨
   p.transport = TransportSCTP) ∧
  (p.security = SecurityNone ∨ p.security = SecurityTLS) ∧
  (p.direction = DirectionBidi ∨ p.direction = DirectionUpload ∨
   p.direction = DirectionDownload) ∧
  p.flags = 0 ∧ (10 ≤ p.chunkSize ∧ p.chunkSize ≤ 10000000) ∧
  (1000 ≤ p.durationMS ∧ p.durationMS < 2 ^ 64) ∧ p.warmupMS < 2 ^ 64 ∧
  p.nonceClient.length = 16 ∧
  ¬ p.nonceClient.foldl (fun x y => x ||| y) 0 = 0

def ChallengeValid (p : PktChallenge) : Prop :=
  p.header.magic = MAGIC ∧ p.header.type = TypeChallenge ∧
  p.sessionID.length = 16 ∧ p.authMethod < 256 ∧ p.nonceServer.length = 16

def AnswerValid (p : PktAnswer) : Prop :=
  p.header.magic = MAGIC ∧ p.header.type = TypeAnswer ∧
  p.sessionID.length = 16 ∧ p.authHash.length = 32

def AckValid (p : PktAck) : Prop :=
  p.header.magic = MAGIC ∧ p.header.type = TypeAck ∧ p.sessionID.length = 16

def ResultValid (p : PktResult) : Prop :=
  p.header.magic = MAGIC ∧ p.header.type = TypeResult ∧
  p.sessionID.length = 16 ∧ p.bytesSent < 2 ^ 64 ∧ p.bytesReceived < 2 ^ 64

/-! ## Decode after encode, for each packet kind -/

theorem unmarshalHello_encode (p : PktHello) (h : HelloValid p) :
    UnmarshalHello p.encodeBytes = .ok p := by
  obtain ⟨⟨magic, ver, ty⟩, sid, tr, se, di, fl, ck, du, wa, nc⟩ := p
  obtain ⟨hm, ht, hsl, htr, hse, hdi, hf, hck, hdu, hwa, hnl, hnz⟩ := h
  simp only at hm ht hsl htr hse hdi hf hck hdu hwa hnl hnz
  simp only [TransportTCP, TransportUDP, TransportSCTP, SecurityNone, SecurityTLS,
    DirectionBidi, DirectionUpload, DirectionDownload] at htr hse hdi
  subst hm ht hf
  rw [eq_explicit_of_length16 sid hsl]
  have htake : List.take 16 nc = nc := take_length_of_eq nc 16 hnl
  simp [PktHello.encodeBytes, UnmarshalHello, UnmarshalHeader, byteSlice, byteAt,
    leUint, lePut, MAGIC, HeaderSize, TypeHello, PktHelloSize, TransportTCP,
    TransportUDP, TransportSCTP, SecurityNone, SecurityTLS, DirectionBidi,
    DirectionUpload, DirectionDownload, htake, hnz, hnl]
  rw [if_neg (by omega)]
  rw [if_neg (by omega)]
  rw [if_neg (by omega)]
  rw [if_neg (by omega)]
  rw [if_neg (by omega)]
  simp
  omega

theorem unmarshalChallenge_encode (p : PktChallenge) (h : ChallengeValid p) :
    UnmarshalChallenge p.encodeBytes = .ok p := by
  obtain ⟨⟨magic, ver, ty⟩, sid, am, ns⟩ := p
  obtain ⟨hm, ht, hsl, ham, hnl⟩ := h
  simp only at hm ht hsl ham hnl
  subst hm ht
  rw [eq_explicit_of_length16 sid hsl]
  have htake : List.take 16 ns = ns := take_length_of_eq ns 16 hnl
  simp [PktChallenge.encodeBytes, UnmarshalChallenge, UnmarshalHeader, byteSlice,
    byteAt, MAGIC, HeaderSize, TypeChallenge, PktChallengeSize, htake, hnl]

theorem unmarshalAnswer_encode (p : PktAnswer) (h : AnswerValid p) :
    UnmarshalAnswer p.encodeBytes = .ok p := by
  obtain ⟨⟨magic, ver, ty⟩, sid, hash⟩ := p
  obtain ⟨hm, ht, hsl, hhl⟩ := h
  simp only at hm ht hsl hhl
  subst hm ht
  rw [eq_explicit_of_length16 sid hsl]
  have htake : List.take 32 hash = hash := take_length_of_eq hash 32 hhl
  simp [PktAnswer.encodeBytes, UnmarshalAnswer, UnmarshalHeader, byteSlice,
    byteAt, MAGIC, HeaderSize, TypeAnswer, PktAnswerSize, htake, hhl]

theorem unmarshalAck_encode (p : PktAck) (h : AckValid p) :
    UnmarshalAck p.encodeBytes = .ok p := by
  obtain ⟨⟨magic, ver, ty⟩, sid, auth, code⟩ := p
  obtain ⟨hm, ht, hsl⟩ := h
  simp only at hm ht hsl
  subst hm ht
  rw [eq_explicit_of_length16 sid hsl]
  simp [PktAck.encodeBytes, UnmarshalAck, UnmarshalHeader, byteSlice, byteAt,
    MAGIC, HeaderSize, TypeAck, PktAckSize]

theorem unmarshalResult_encode (p : PktResult) (h : ResultValid p) :
    UnmarshalResult p.encodeBytes = .ok p := by
  obtain ⟨⟨magic, ver, ty⟩, sid, bs, br⟩ := p
  obtain ⟨hm, ht, hsl, hbs, hbr⟩ := h
  simp only at hm ht hsl hbs hbr
  subst hm ht
  rw [eq_explicit_of_length16 sid hsl]
  simp [PktResult.encodeBytes, UnmarshalResult, UnmarshalHeader, byteSlice, byteAt,
    leUint, lePut, MAGIC, HeaderSize, TypeResult, PktResultSize]
  omega

/-! ## Encode after decode: shape inversion lemmas -/

theorem header_decode_shape (d : List Nat) (hd : Header)
    (h : UnmarshalHeader d = .ok hd) :
    HeaderSize ≤ d.length ∧ d.take 4 = MAGIC ∧
    hd = { magic := d.take 4, version := byteAt d 4, type := byteAt d 5 } := by
  unfold UnmarshalHeader at h
  by_cases h1 : d.length < HeaderSize
  · simp [h1] at h
  · simp only [h1, if_false] at h
    by_cases h2 : d.take 4 = MAGIC
    · simp [h2] at h
      refine ⟨by omega, h2, ?_⟩
      rw [h2]
      exact h.symm
    · simp [h2] at h

theorem byteSlice_header (data : List Nat) :
    byteSlice data 0 HeaderSize = data.take 6 := by
  unfold byteSlice
  rw [List.drop_zero]
  rfl

theorem hello_decode_shape (data : List Nat) (p : PktHello)
    (h : UnmarshalHello data = .ok p) :
    data.length = 63 ∧ data.take 4 = MAGIC ∧ byteAt data 5 = TypeHello ∧
    p = { header := { magic := data.take 4, version := byteAt data 4,
                      type := byteAt data 5 },
          sessionID := byteSlice data 6 22, transport := byteAt data 22,
          security := byteAt data 23, direction := byteAt data 24,
          flags := leUint (byteSlice data 25 27),
          chunkSize := leUint (byteSlice data 27 31),
          durationMS := leUint (byteSlice data 31 39),
          warmupMS := leUint (byteSlice data 39 47),
          nonceClient := byteSlice data 47 63 } := by
  unfold UnmarshalHello at h
  split at h
  · exact Except.noConfusion h
  rename_i hlen
  split at h
  · exact Except.noConfusion h
  rename_i hdr heq
  obtain ⟨hge, hmg, hshape⟩ := header_decode_shape _ _ heq
  rw [byteSlice_header] at hmg hshape hge
  rw [List.length_take] at hge
  have hlen63 : data.length = 63 := by
    simp only [PktHelloSize] at hlen
    omega
  have hmg4 : data.take 4 = MAGIC := by
    rw [← take4_of_take6]
    exact hmg
  have hv : byteAt (data.take 6) 4 = byteAt data 4 := byteAt_take data 6 4 (by omega)
  have hty : byteAt (data.take 6) 5 = byteAt data 5 := byteAt_take data 6 5 (by omega)
  rw [take4_of_take6, hv, hty] at hshape
  split at h
  · exact Except.noConfusion h
  rename_i htype
  rw [hshape] at htype
  simp only [not_not] at htype
  dsimp only at h
  split at h
  · exact Except.noConfusion h
  split at h
  · exact Except.noConfusion h
  split at h
  · exact Except.noConfusion h
  split at h
  · exact Except.noConfusion h
  split at h
  · exact Except.noConfusion h
  split at h
  · exact Except.noConfusion h
  split at h
  · exact Except.noConfusion h
  simp only [Except.ok.injEq] at h
  refine ⟨hlen63, hmg4, htype, ?_⟩
  rw [← h, hshape]

theorem challenge_decode_shape (data : List Nat) (p : PktChallenge)
    (h : UnmarshalChallenge data = .ok p) :
    data.length = 39 ∧ data.take 4 = MAGIC ∧ byteAt data 5 = TypeChallenge ∧
    p = { header := { magic := data.take 4, version := byteAt data 4,
                      type := byteAt data 5 },
          sessionID := byteSlice data 6 22, authMethod := byteAt data 22,
          nonceServer := byteSlice data 23 39 } := by
  unfold UnmarshalChallenge at h
  split at h
  · exact Except.noConfusion h
  rename_i hlen
  split at h
  · exact Except.noConfusion h
  rename_i hdr heq
  obtain ⟨hge, hmg, hshape⟩ := header_decode_shape _ _ heq
  rw [byteSlice_header] at hmg hshape hge
  rw [List.length_take] at hge
  have hlen39 : data.length = 39 := by
    simp only [PktChallengeSize] at hlen
    omega
  have hmg4 : data.take 4 = MAGIC := by
    rw [← take4_of_take6]
    exact hmg
  have hv : byteAt (data.take 6) 4 = byteAt data 4 := byteAt_take data 6 4 (by omega)
  have hty : byteAt (data.take 6) 5 = byteAt data 5 := byteAt_take data 6 5 (by omega)
  rw [take4_of_take6, hv, hty] at hshape
  split at h
  · exact Except.noConfusion h
  rename_i htype
  rw [hshape] at htype
  simp only [not_not] at htype
  simp only [Except.ok.injEq] at h
  refine ⟨hlen39, hmg4, htype, ?_⟩
  rw [← h, hshape]

theorem answer_decode_shape (data : List Nat) (p : PktAnswer)
    (h : UnmarshalAnswer data = .ok p) :
    data.length = 54 ∧ data.take 4 = MAGIC ∧ byteAt data 5 = TypeAnswer ∧
    p = { header := { magic := data.take 4, version := byteAt data 4,
                      type := byteAt data 5 },
          sessionID := byteSlice data 6 22, authHash := byteSlice data 22 54 } := by
  unfold UnmarshalAnswer at h
  split at h
  · exact Except.noConfusion h
  rename_i hlen
  split at h
  · exact Except.noConfusion h
  rename_i hdr heq
  obtain ⟨hge, hmg, hshape⟩ := header_decode_shape _ _ heq
  rw [byteSlice_header] at hmg hshape hge
  rw [List.length_take] at hge
  have hlen54 : data.length = 54 := by
    simp only [PktAnswerSize] at hlen
    omega
  have hmg4 : data.take 4 = MAGIC := by
    rw [← take4_of_take6]
    exact hmg
  have hv : byteAt (data.take 6) 4 = byteAt data 4 := byteAt_take data 6 4 (by omega)
  have hty : byteAt (data.take 6) 5 = byteAt data 5 := byteAt_take data 6 5 (by omega)
  rw [take4_of_take6, hv, hty] at hshape
  split at h
  · exact Except.noConfusion h
  rename_i htype
  rw [hshape] at htype
  simp only [not_not] at htype
  simp only [Except.ok.injEq] at h
  refine ⟨hlen54, hmg4, htype, ?_⟩
  rw [← h, hshape]

theorem ack_decode_shape (data : List Nat) (p : PktAck)
    (h : UnmarshalAck data = .ok p) :
    data.length = 24 ∧ data.take 4 = MAGIC ∧ byteAt data 5 = TypeAck ∧
    p = { header := { magic := data.take 4, version := byteAt data 4,
                      type := byteAt data 5 },
          sessionID := byteSlice data 6 22, auth := byteAt data 22,
          code := byteAt data 23 } := by
  unfold UnmarshalAck at h
  split at h
  · exact Except.noConfusion h
  rename_i hlen
  split at h
  · exact Except.noConfusion h
  rename_i hdr heq
  obtain ⟨hge, hmg, hshape⟩ := header_decode_shape _ _ heq
  rw [byteSlice_header] at hmg hshape hge
  rw [List.length_take] at hge
  have hlen24 : data.length = 24 := by
    simp only [PktAckSize] at hlen
    omega
  have hmg4 : data.take 4 = MAGIC := by
    rw [← take4_of_take6]
    exact hmg
  have hv : byteAt (data.take 6) 4 = byteAt data 4 := byteAt_take data 6 4 (by omega)
  have hty : byteAt (data.take 6) 5 = byteAt data 5 := byteAt_take data 6 5 (by omega)
  rw [take4_of_take6, hv, hty] at hshape
  split at h
  · exact Except.noConfusion h
  rename_i htype
  rw [hshape] at htype
  simp only [not_not] at htype
  simp only [Except.ok.injEq] at h
  refine ⟨hlen24, hmg4, htype, ?_⟩
  rw [← h, hshape]

theorem result_decode_shape (data : List Nat) (p : PktResult)
    (h : UnmarshalResult data = .ok p) :
    data.length = 38 ∧ data.take 4 = MAGIC ∧ byteAt data 5 = TypeResult ∧
    p = { header := { magic := data.take 4, version := byteAt data 4,
                      type := byteAt data 5 },
          sessionID := byteSlice data 6 22,
          bytesSent := leUint (byteSlice data 22 30),
          bytesReceived := leUint (byteSlice data 30 38) } := by
  unfold UnmarshalResult at h
  split at h
  · exact Except.noConfusion h
  rename_i hlen
  split at h
  · exact Except.noConfusion h
  rename_i hdr heq
  obtain ⟨hge, hmg, hshape⟩ := header_decode_shape _ _ heq
  rw [byteSlice_header] at hmg hshape hge
  rw [List.length_take] at hge
  have hlen38 : data.length = 38 := by
    simp only [PktResultSize] at hlen
    omega
  have hmg4 : data.take 4 = MAGIC := by
    rw [← take4_of_take6]
    exact hmg
  have hv : byteAt (data.take 6) 4 = byteAt data 4 := byteAt_take data 6 4 (by omega)
  have hty : byteAt (data.take 6) 5 = byteAt data 5 := byteAt_take data 6 5 (by omega)
  rw [take4_of_take6, hv, hty] at hshape
  split at h
  · exact Except.noConfusion h
  rename_i htype
  rw [hshape] at htype
  simp only [not_not] at htype
  simp only [Except.ok.injEq] at h
  refine ⟨hlen38, hmg4, htype, ?_⟩
  rw [← h, hshape]

theorem marshal_unmarshalHello (data : List Nat) (p : PktHello)
    (hbytes : ∀ b ∈ data, b < 256)
    (h : UnmarshalHello data = .ok p) :
    p.Marshal = .ok data := by
  obtain ⟨hlen, hmg, hty, hp⟩ := hello_decode_shape data p h
  subst hp
  unfold PktHello.Marshal PktHello.encodeBytes
  rw [if_neg (by simpa using hmg)]
  dsimp only
  rw [← byteSlice_zero data 4]
  rw [← byteSlice_singleton data 4 5 (by norm_num) (by omega)]
  rw [← byteSlice_singleton data 5 6 (by norm_num) (by omega)]
  rw [← byteSlice_singleton data 22 23 (by norm_num) (by omega)]
  rw [← byteSlice_singleton data 23 24 (by norm_num) (by omega)]
  rw [← byteSlice_singleton data 24 25 (by norm_num) (by omega)]
  rw [lePut_leUint_slice data 25 27 2 (by norm_num) (by norm_num) (by omega) hbytes]
  rw [lePut_leUint_slice data 27 31 4 (by norm_num) (by norm_num) (by omega) hbytes]
  rw [lePut_leUint_slice data 31 39 8 (by norm_num) (by norm_num) (by omega) hbytes]
  rw [lePut_leUint_slice data 39 47 8 (by norm_num) (by norm_num) (by omega) hbytes]
  simp only [List.append_assoc]
  rw [← byteSlice_split data 39 47 63 (by norm_num) (by norm_num)]
  rw [← byteSlice_split data 31 39 63 (by norm_num) (by norm_num)]
  rw [← byteSlice_split data 27 31 63 (by norm_num) (by norm_num)]
  rw [← byteSlice_split data 25 27 63 (by norm_num) (by norm_num)]
  rw [← byteSlice_split data 24 25 63 (by norm_num) (by norm_num)]
  rw [← byteSlice_split data 23 24 63 (by norm_num) (by norm_num)]
  rw [← byteSlice_split data 22 23 63 (by norm_num) (by norm_num)]
  rw [← byteSlice_split data 6 22 63 (by norm_num) (by norm_num)]
  rw [← byteSlice_split data 5 6 63 (by norm_num) (by norm_num)]
  rw [← byteSlice_split data 4 5 63 (by norm_num) (by norm_num)]
  rw [← byteSlice_split data 0 4 63 (by norm_num) (by norm_num)]
  rw [byteSlice_zero, ← hlen, List.take_length]

theorem marshal_unmarshalChallenge (data : List Nat) (p : PktChallenge)
    (h : UnmarshalChallenge data = .ok p) :
    p.Marshal = .ok data := by
  obtain ⟨hlen, hmg, hty, hp⟩ := challenge_decode_shape data p h
  subst hp
  unfold PktChallenge.Marshal PktChallenge.encodeBytes
  rw [if_neg (by simpa using hmg)]
  dsimp only
  rw [← byteSlice_zero data 4]
  rw [← byteSlice_singleton data 4 5 (by norm_num) (by omega)]
  rw [← byteSlice_singleton data 5 6 (by norm_num) (by omega)]
  rw [← byteSlice_singleton data 22 23 (by norm_num) (by omega)]
  simp only [List.append_assoc]
  rw [← byteSlice_split data 22 23 39 (by norm_num) (by norm_num)]
  rw [← byteSlice_split data 6 22 39 (by norm_num) (by norm_num)]
  rw [← byteSlice_split data 5 6 39 (by norm_num) (by norm_num)]
  rw [← byteSlice_split data 4 5 39 (by norm_num) (by norm_num)]
  rw [← byteSlice_split data 0 4 39 (by norm_num) (by norm_num)]
  rw [byteSlice_zero, ← hlen, List.take_length]

theorem marshal_unmarshalAnswer (data : List Nat) (p : PktAnswer)
    (h : UnmarshalAnswer data = .ok p) :
    p.Marshal = .ok data := by
  obtain ⟨hlen, hmg, hty, hp⟩ := answer_decode_shape data p h
  subst hp
  unfold PktAnswer.Marshal PktAnswer.encodeBytes
  rw [if_neg (by simpa using hmg)]
  dsimp only
  rw [← byteSlice_zero data 4]
  rw [← byteSlice_singleton data 4 5 (by norm_num) (by omega)]
  rw [← byteSlice_singleton data 5 6 (by norm_num) (by omega)]
  simp only [List.append_assoc]
  rw [← byteSlice_split data 6 22 54 (by norm_num) (by norm_num)]
  rw [← byteSlice_split data 5 6 54 (by norm_num) (by norm_num)]
  rw [← byteSlice_split data 4 5 54 (by norm_num) (by norm_num)]
  rw [← byteSlice_split data 0 4 54 (by norm_num) (by norm_num)]
  rw [byteSlice_zero, ← hlen, List.take_length]

theorem marshal_unmarshalAck (data : List Nat) (p : PktAck)
    (h : UnmarshalAck data = .ok p) :
    p.Marshal = .ok data := by
  obtain ⟨hlen, hmg, hty, hp⟩ := ack_decode_shape data p h
  subst hp
  unfold PktAck.Marshal PktAck.encodeBytes
  rw [if_neg (by simpa using hmg)]
  dsimp only
  rw [← byteSlice_zero data 4]
  rw [← byteSlice_singleton data 4 5 (by norm_num) (by omega)]
  rw [← byteSlice_singleton data 5 6 (by norm_num) (by omega)]
  rw [← byteSlice_singleton data 22 23 (by norm_num) (by omega)]
  rw [← byteSlice_singleton data 23 24 (by norm_num) (by omega)]
  simp only [List.append_assoc]
  rw [← byteSlice_split data 22 23 24 (by norm_num) (by norm_num)]
  rw [← byteSlice_split data 6 22 24 (by norm_num) (by norm_num)]
  rw [← byteSlice_split data 5 6 24 (by norm_num) (by norm_num)]
  rw [← byteSlice_split data 4 5 24 (by norm_num) (by norm_num)]
  rw [← byteSlice_split data 0 4 24 (by norm_num) (by norm_num)]
  rw [byteSlice_zero, ← hlen, List.take_length]

theorem marshal_unmarshalResult (data : List Nat) (p : PktResult)
    (hbytes : ∀ b ∈ data, b < 256)
    (h : UnmarshalResult data = .ok p) :
    p.Marshal = .ok data := by
  obtain ⟨hlen, hmg, hty, hp⟩ := result_decode_shape data p h
  subst hp
  unfold PktResult.Marshal PktResult.encodeBytes
  rw [if_neg (by simpa using hmg)]
  dsimp only
  rw [← byteSlice_zero data 4]
  rw [← byteSlice_singleton data 4 5 (by norm_num) (by omega)]
  rw [← byteSlice_singleton data 5 6 (by norm_num) (by omega)]
  rw [lePut_leUint_slice data 22 30 8 (by norm_num) (by norm_num) (by omega) hbytes]
  rw [lePut_leUint_slice data 30 38 8 (by norm_num) (by norm_num) (by omega) hbytes]
  simp only [List.append_assoc]
  rw [← byteSlice_split data 22 30 38 (by norm_num) (by norm_num)]
  rw [← byteSlice_split data 6 22 38 (by norm_num) (by norm_num)]
  rw [← byteSlice_split data 5 6 38 (by norm_num) (by norm_num)]
  rw [← byteSlice_split data 4 5 38 (by norm_num) (by norm_num)]
  rw [← byteSlice_split data 0 4 38 (by norm_num) (by norm_num)]
  rw [byteSlice_zero, ← hlen, List.take_length]

/-! ## SHA-256 and HMAC (models of the Go standard library crypto/sha256 and
crypto/hmac packages used by the auth primitives; implemented per FIPS 180-4
and RFC 2104, validated below against standard test vectors). -/

def w32 (n : Nat) : Nat := n % 4294967296

def rotr32 (k n : Nat) : Nat := w32 ((n >>> k) ||| (n <<< (32 - k)))

def bigSigma0 (x : Nat) : Nat := (rotr32 2 x) ^^^ (rotr32 13 x) ^^^ (rotr32 22 x)

def bigSigma1 (x : Nat) : Nat := (rotr32 6 x) ^^^ (rotr32 11 x) ^^^ (rotr32 25 x)

def smallSigma0 (x : Nat) : Nat := (rotr32 7 x) ^^^ (rotr32 18 x) ^^^ (x >>> 3)

def smallSigma1 (x : Nat) : Nat := (rotr32 17 x) ^^^ (rotr32 19 x) ^^^ (x >>> 10)

def chFn (x y z : Nat) : Nat := (x &&& y) ^^^ ((x ^^^ 4294967295) &&& z)

def majFn (x y z : Nat) : Nat := (x &&& y) ^^^ (x &&& z) ^^^ (y &&& z)

def K256 : List Nat :=
  [1116352408, 1899447441, 3049323471, 3921009573,
   961987163, 1508970993, 2453635748, 2870763221,
   3624381080, 310598401, 607225278, 1426881987,
   1925078388, 2162078206, 2614888103, 3248222580,
   3835390401, 4022224774, 264347078, 604807628,
   770255983, 1249150122, 1555081692, 1996064986,
   2554220882, 2821834349, 2952996808, 3210313671,
   3336571891, 3584528711, 113926993, 338241895,
   666307205, 773529912, 1294757372, 1396182291,
   1695183700, 1986661051, 2177026350, 2456956037,
   2730485921, 2820302411, 3259730800, 3345764771,
   3516065817, 3600352804, 4094571909, 275423344,
   430227734, 506948616, 659060556, 883997877,
   958139571, 1322822218, 1537002063, 1747873779,
   1955562222, 2024104815, 2227730452, 2361852424,
   2428436474, 2756734187, 3204031479, 3329325298]

def H256 : List Nat :=
  [1779033703, 3144134277, 1013904242, 2773480762,
   1359893119, 2600822924, 528734635, 1541459225]

/-- Big-endian 32-bit words from a list of bytes, four at a time. -/
def beWords : List Nat → List Nat
  | b0 :: b1 :: b2 :: b3 :: rest =>
      (((b0 * 256 + b1) * 256 + b2) * 256 + b3) :: beWords rest
  | _ => []

/-- One extension step of the SHA-256 message schedule. -/
def schedStep (acc : List Nat) : List Nat :=
  acc ++ [w32 (smallSigma1 (acc.getD (acc.length - 2) 0) +
               acc.getD (acc.length - 7) 0 +
               smallSigma0 (acc.getD (acc.length - 15) 0) +
               acc.getD (acc.length - 16) 0)]

def schedule (ws : List Nat) : List Nat := schedStep^[48] ws

def compressRound (st : List Nat) (kw : Nat × Nat) : List Nat :=
  match st with
  | [a, b, c, d, e, f, g, h] =>
    let t1 := w32 (h + bigSigma1 e + chFn e f g + kw.1 + kw.2)
    let t2 := w32 (bigSigma0 a + majFn a b c)
    [w32 (t1 + t2), a, b, c, w32 (d + t1), e, f, g]
  | _ => st

def processBlock (hs : List Nat) (block : List Nat) : List Nat :=
  let ws := schedule (beWords block)
  let st := (List.zip K256 ws).foldl compressRound hs
  List.zipWith (fun x y => w32 (x + y)) hs st

/-- Split a byte list into 64-byte chunks (fuel-based so that it evaluates
inside the kernel). -/
def chunks64 : Nat → List Nat → List (List Nat)
  | 0, _ => []
  | fuel + 1, l => if l = [] then [] else l.take 64 :: chunks64 fuel (l.drop 64)

def sha256Pad (msg : List Nat) : List Nat :=
  msg ++ 128 :: List.replicate ((55 + 64 - msg.length % 64) % 64) 0 ++
  (lePut 8 (8 * msg.length)).reverse

def wordsToBytesBE : List Nat → List Nat
  | [] => []
  | w :: ws => (lePut 4 w).reverse ++ wordsToBytesBE ws

def sha256 (msg : List Nat) : List Nat :=
  let padded := sha256Pad msg
  wordsToBytesBE ((chunks64 padded.length padded).foldl processBlock H256)

/-- HMAC-SHA256 per RFC 2104, as implemented by crypto/hmac with a
64-byte block size. -/
def hmacSha256 (key msg : List Nat) : List Nat :=
  let key1 := if 64 < key.length then sha256 key else key
  let kpad := key1 ++ List.replicate (64 - key1.length) 0
  sha256 ((kpad.map (fun b => b ^^^ 92)) ++
          sha256 ((kpad.map (fun b => b ^^^ 54)) ++ msg))

set_option maxRecDepth 100000 in
/-- FIPS 180-4 test vector: the SHA-256 digest of the empty message. -/
theorem sha256_empty :
    sha256 [] =
      [0xe3, 0xb0, 0xc4, 0x42, 0x98, 0xfc, 0x1c, 0x14, 0x9a, 0xfb, 0xf4, 0xc8,
       0x99, 0x6f, 0xb9, 0x24, 0x27, 0xae, 0x41, 0xe4, 0x64, 0x9b, 0x93, 0x4c,
       0xa4, 0x95, 0x99, 0x1b, 0x78, 0x52, 0xb8, 0x55] := by decide

set_option maxRecDepth 100000 in
/-- FIPS 180-4 test vector: the SHA-256 digest of the three bytes abc. -/
theorem sha256_abc :
    sha256 [97, 98, 99] =
      [0xba, 0x78, 0x16, 0xbf, 0x8f, 0x01, 0xcf, 0xea, 0x41, 0x41, 0x40, 0xde,
       0x5d, 0xae, 0x22, 0x23, 0xb0, 0x03, 0x61, 0xa3, 0x96, 0x17, 0x7a, 0x9c,
       0xb4, 0x10, 0xff, 0x61, 0xf2, 0x00, 0x15, 0xad] := by decide

set_option maxRecDepth 100000 in
/-- RFC 4231 test case 1 for HMAC-SHA256. -/
theorem hmac_rfc4231_tc1 :
    hmacSha256 (List.replicate 20 0x0b)
      [0x48, 0x69, 0x20, 0x54, 0x68, 0x65, 0x72, 0x65] =
      [0xb0, 0x34, 0x4c, 0x61, 0xd8, 0xdb, 0x38, 0x53, 0x5c, 0xa8, 0xaf, 0xce,
       0xaf, 0x0b, 0xf1, 0x2b, 0x88, 0x1d, 0xc2, 0x00, 0xc9, 0x83, 0x3d, 0xa7,
       0x26, 0xe9, 0x37, 0x6c, 0x2e, 0x32, 0xcf, 0xf7] := by decide

/-! ## Auth primitives (packets/v1 packets.go ComputeAuthHash, VerifyAuthHash)

The hmac object of crypto/hmac is modelled by its accumulated write buffer:
hmac.New records the key, Write appends bytes, and Sum produces the RFC 2104
HMAC of everything written. -/

structure HmacState where
  key : List Nat
  buf : List Nat

def hmacNew (key : List Nat) : HmacState := { key := key, buf := [] }

def hmacWrite (st : HmacState) (data : List Nat) : HmacState :=
  { key := st.key, buf := st.buf ++ data }

def hmacSum (st : HmacState) : List Nat := hmacSha256 st.key st.buf

/-- Compute the authentication hash from raw hello packet bytes and server
nonce: h := hmac.New(sha256.New, psk); h.Write(helloPktBytes);
h.Write(nonceServer); h.Sum(nil). -/
def ComputeAuthHash (helloPktBytes nonceServer psk : List Nat) : List Nat :=
  hmacSum (hmacWrite (hmacWrite (hmacNew psk) helloPktBytes) nonceServer)

/-- The loop of crypto/subtle ConstantTimeCompare: or-accumulate the xor of
every byte pair; the second component counts the executed loop iterations
(the cost measure of this embedding). -/
def ctLoop : List Nat → List Nat → Nat × Nat
  | x :: xs, y :: ys =>
    let r := ctLoop xs ys
    (((x ^^^ y) ||| r.1), r.2 + 1)
  | _, _ => (0, 0)

/-- crypto/subtle ConstantTimeCompare: false immediately on length mismatch,
otherwise the or-fold of the xors compared with zero.  The Nat component is
the number of loop iterations executed. -/
def ConstantTimeCompare (x y : List Nat) : Bool × Nat :=
  if x.length ≠ y.length then (false, 0)
  else
    let r := ctLoop x y
    (r.1 == 0, r.2)

/-- crypto/hmac hmac.Equal. -/
def hmacEqual (mac1 mac2 : List Nat) : Bool := (ConstantTimeCompare mac1 mac2).1

/-- Verify the received authentication hash against the expected value
(packets/v1 packets.go VerifyAuthHash). -/
def VerifyAuthHash (helloPktBytes nonceServer psk receivedHash : List Nat) : Bool :=
  hmacEqual (ComputeAuthHash helloPktBytes nonceServer psk) receivedHash

/-- Loop iteration count of the comparison performed by VerifyAuthHash. -/
def VerifyAuthHashSteps (helloPktBytes nonceServer psk receivedHash : List Nat) : Nat :=
  (ConstantTimeCompare (ComputeAuthHash helloPktBytes nonceServer psk)
    receivedHash).2

theorem ctLoop_snd (x y : List Nat) (h : x.length = y.length) :
    (ctLoop x y).2 = x.length := by
  induction x generalizing y with
  | nil =>
    cases y with
    | nil => rfl
    | cons b ys => simp at h
  | cons a xs ih =>
    cases y with
    | nil => simp at h
    | cons b ys =>
      simp only [List.length_cons] at h ⊢
      simp only [ctLoop]
      rw [ih ys (by omega)]

theorem ctLoop_fst_eq_zero (x y : List Nat) (h : x.length = y.length) :
    (ctLoop x y).1 = 0 ↔ x = y := by
  induction x generalizing y with
  | nil =>
    cases y with
    | nil => simp [ctLoop]
    | cons b ys => simp at h
  | cons a xs ih =>
    cases y with
    | nil => simp at h
    | cons b ys =>
      simp only [List.length_cons] at h
      simp only [ctLoop, nat_lor_eq_zero, Nat.xor_eq_zero, List.cons.injEq]
      rw [ih ys (by omega)]

theorem constantTimeCompare_true_iff (x y : List Nat) :
    (ConstantTimeCompare x y).1 = true ↔ x = y := by
  unfold ConstantTimeCompare
  by_cases h : x.length = y.length
  · simp only [h, ne_eq, not_true_eq_false, if_false]
    simp [ctLoop_fst_eq_zero x y h]
  · simp only [ne_eq, h, not_false_eq_true, if_true]
    constructor
    · intro hf
      simp at hf
    · intro he
      exact absurd (he ▸ rfl) h

theorem constantTimeCompare_snd (x y : List Nat) (h : x.length = y.length) :
    (ConstantTimeCompare x y).2 = x.length := by
  unfold ConstantTimeCompare
  simp only [h, ne_eq, not_true_eq_false, if_false]
  rw [ctLoop_snd x y h, h]

theorem compressRound_length (st : List Nat) (kw : Nat × Nat) :
    (compressRound st kw).length = st.length := by
  unfold compressRound
  split
  · simp
  · rfl

theorem foldl_compressRound_length (l : List (Nat × Nat)) (st : List Nat) :
    (l.foldl compressRound st).length = st.length := by
  induction l generalizing st with
  | nil => rfl
  | cons kw l ih => rw [List.foldl_cons, ih, compressRound_length]

theorem processBlock_length (hs block : List Nat) :
    (processBlock hs block).length = hs.length := by
  unfold processBlock
  rw [List.length_zipWith, foldl_compressRound_length]
  omega

theorem foldl_processBlock_length (l : List (List Nat)) (hs : List Nat) :
    (l.foldl processBlock hs).length = hs.length := by
  induction l generalizing hs with
  | nil => rfl
  | cons b l ih => rw [List.foldl_cons, ih, processBlock_length]

theorem wordsToBytesBE_length (ws : List Nat) :
    (wordsToBytesBE ws).length = 4 * ws.length := by
  induction ws with
  | nil => rfl
  | cons w ws ih =>
    simp only [wordsToBytesBE, List.length_append, List.length_reverse,
      lePut_length, ih, List.length_cons]
    ring

/-- Every SHA-256 digest is exactly 32 bytes. -/
theorem sha256_length (msg : List Nat) : (sha256 msg).length = 32 := by
  unfold sha256
  rw [wordsToBytesBE_length, foldl_processBlock_length]
  rfl

theorem hmacSha256_length (key msg : List Nat) :
    (hmacSha256 key msg).length = 32 := by
  unfold hmacSha256
  exact sha256_length _

theorem computeAuthHash_length (hello nonce psk : List Nat) :
    (ComputeAuthHash hello nonce psk).length = 32 := by
  unfold ComputeAuthHash hmacSum
  exact hmacSha256_length _ _

/-- ComputeAuthHash is the one-shot HMAC-SHA256 of the concatenation of its
two written inputs, keyed with the pre-shared key. -/
theorem computeAuthHash_eq_hmac (hello nonce psk : List Nat) :
    ComputeAuthHash hello nonce psk = hmacSha256 psk (hello ++ nonce) := by
  unfold ComputeAuthHash hmacSum hmacWrite hmacNew
  simp

/-- Verification succeeds exactly on the computed hash. -/
theorem verifyAuthHash_true_iff (hello nonce psk received : List Nat) :
    VerifyAuthHash hello nonce psk received = true ↔
      received = ComputeAuthHash hello nonce psk := by
  unfold VerifyAuthHash hmacEqual
  rw [constantTimeCompare_true_iff]
  exact eq_comm

/-! ## Transfer-engine termination classification
(internal/protocol/transfer/loops.go TransferData, lines 164-218)

The concurrent part of TransferData (goroutines, channels, the select) is
abstracted to its observable stopping condition: errStop is the first value
obtained from the select (none models a nil error published by a pump or a
nil ctx.Err), and remaining models time.Until(deadline) at classification
time, in milliseconds.  The classification switch and the final return value
are translated verbatim. -/

inductive StopErr where
  | deadlineExceeded
  | canceled
  | eofErr
  | ioErr
deriving DecidableEq, Repr

/-- The grace window of TransferData, in milliseconds. -/
def transferGrace : Int := 250

/-- The premature-classification switch at the end of TransferData. -/
def classifyPremature (errStop : Option StopErr) (deadlineOk : Bool)
    (remaining : Int) : Bool :=
  match errStop with
  | none => false
  | some .deadlineExceeded => false
  | some .eofErr =>
      if deadlineOk = true ∧ transferGrace < remaining then true else false
  | some _ =>
      if ¬ (deadlineOk = true ∧ remaining ≤ transferGrace) then true else false

/-- Return value and premature flag of the tail of TransferData: the function
logs when premature and then returns nil unconditionally. -/
def transferDataOutcome (errStop : Option StopErr) (deadlineOk : Bool)
    (remaining : Int) : Option StopErr × Bool :=
  (none, classifyPremature errStop deadlineOk remaining)

/-! ## Warmup counting gate (loops.go SendLoop, RecvLoop, Reporter)

The three concurrent activities are modelled by a timestamped event trace:
writeOk n is a pump write that returned n bytes, readOk n a pump read, and
gateOpen is the counting.Store(true) the reporter performs after its warmup
sleep.  Each event applies the corresponding source update to the shared
state. -/

inductive PumpEvent where
  | writeOk (n : Nat)
  | readOk (n : Nat)
  | gateOpen
deriving DecidableEq, Repr

structure XferState where
  counting : Bool
  bytesSent : Nat
  bytesRcvd : Nat
deriving DecidableEq, Repr

def initialXferState : XferState :=
  { counting := false, bytesSent := 0, bytesRcvd := 0 }

/-- State update of one event: the pumps add n only when n is positive and
the counting gate is true (SendLoop line 31, RecvLoop line 56); the reporter
flips the gate (Reporter line 78). -/
def stepEvent (s : XferState) (e : PumpEvent) : XferState :=
  match e with
  | .writeOk n =>
      if 0 < n ∧ s.counting = true then { s with bytesSent := s.bytesSent + n }
      else s
  | .readOk n =>
      if 0 < n ∧ s.counting = true then { s with bytesRcvd := s.bytesRcvd + n }
      else s
  | .gateOpen => { s with counting := true }

def runEvents (s : XferState) (tr : List (Nat × PumpEvent)) : XferState :=
  tr.foldl (fun st te => stepEvent st te.2) s

theorem stepEvent_counters_of_not_counting (s : XferState) (e : PumpEvent)
    (hs : s.counting = false) :
    (stepEvent s e).bytesSent = s.bytesSent ∧
    (stepEvent s e).bytesRcvd = s.bytesRcvd := by
  cases e with
  | writeOk n => simp [stepEvent, hs]
  | readOk n => simp [stepEvent, hs]
  | gateOpen => exact ⟨rfl, rfl⟩

theorem runEvents_counting_false (s : XferState) (tr : List (Nat × PumpEvent))
    (hs : s.counting = false)
    (hng : ∀ te ∈ tr, te.2 ≠ PumpEvent.gateOpen) :
    (runEvents s tr).counting = false := by
  induction tr generalizing s with
  | nil => exact hs
  | cons te tr ih =>
    have h1 : te.2 ≠ PumpEvent.gateOpen := hng te (List.mem_cons_self te tr)
    have h2 : (stepEvent s te.2).counting = false := by
      cases hte : te.2 with
      | writeOk n =>
        simp only [stepEvent]
        split <;> simp [hs]
      | readOk n =>
        simp only [stepEvent]
        split <;> simp [hs]
      | gateOpen => exact absurd hte h1
    exact ih _ h2 (fun x hx => hng x (List.mem_cons_of_mem te hx))

/-! ## Server v1 session handler (internal/server/tcp.go handleV1)

The handler is modelled as a function from the connection input (the bytes
following the already-read 6-byte header) to the list of packets it writes
and its outcome.  Randomness (the server nonce) and the admission semaphore
state are parameters.  recvHelloV1 is translated faithfully, including the
fact that handleV1 never checks the error it returns: on a decode failure
pktHello is nil, and the first field access on it is a nil-pointer
dereference, modelled by the nilPanic outcome. -/

/-- Modelled from the spec: utils.ReadExact is not part of the provided
sources; per section 4.A a receiver reads exactly the requested number of
bytes from the stream or fails. -/
def ReadExact (stream : List Nat) (n : Nat) : Option (List Nat × List Nat) :=
  if n ≤ stream.length then some (stream.take n, stream.drop n) else none

inductive HandlerErr where
  | incorrectType
  | readHelloFailed
  | unmarshalHelloFailed (e : FloErr)
  | marshalFailed
  | readAnswerHeaderFailed
  | answerVersionUnsupported
  | answerIncorrectType
  | readAnswerFailed
  | unmarshalAnswerFailed (e : FloErr)
  | authFailed
  | busy
  | invalidDirection
deriving DecidableEq, Repr

inductive V1Outcome where
  | nilPanic
  | fail (e : HandlerErr)
  | transfer (p : PktHello)
deriving DecidableEq, Repr

def ackPacket (sid : List Nat) (auth code : Nat) : PktAck :=
  { header := createHeader TypeAck, sessionID := sid, auth := auth,
    code := code }

def challengePacket (sid : List Nat) (nonceServer : List Nat) : PktChallenge :=
  { header := createHeader TypeChallenge, sessionID := sid,
    authMethod := AuthHMAC, nonceServer := nonceServer }

/-- Admission control and the OK/Busy acknowledgement at the end of handleV1
(tcp.go lines 296-334).  sendAckV1 evaluates pktHello.SessionID among its
arguments, so a nil pktHello panics here. -/
def admitAndServe (slotAvailable : Bool) (auth : Nat)
    (pktHello? : Option PktHello) (sent : List (List Nat)) :
    List (List Nat) × V1Outcome :=
  if slotAvailable = false then
    match pktHello? with
    | none => (sent, .nilPanic)
    | some p =>
      match (ackPacket p.sessionID auth AckBusy).Marshal with
      | .error _ => (sent, .fail .marshalFailed)
      | .ok b => (sent ++ [b], .fail .busy)
  else
    match pktHello? with
    | none => (sent, .nilPanic)
    | some p =>
      match (ackPacket p.sessionID auth AckOK).Marshal with
      | .error _ => (sent, .fail .marshalFailed)
      | .ok b =>
        if p.direction = DirectionBidi ∨ p.direction = DirectionUpload ∨
           p.direction = DirectionDownload then (sent ++ [b], .transfer p)
        else (sent ++ [b], .fail .invalidDirection)

/-- handleAuthV1 (tcp.go lines 209-248) followed by the AuthFailed
acknowledgement of handleV1 (lines 287-293), given the hello bytes as
retained, the decoded hello (nil on decode failure), and the rest of the
input stream.  sendChallengeV1 receives pktHello.SessionID as an argument,
so a nil pktHello panics before anything is sent. -/
def handleAuthV1 (psk nonceServer : List Nat) (bufHello : List Nat)
    (pktHello? : Option PktHello) (stream : List Nat)
    (slotAvailable : Bool) : List (List Nat) × V1Outcome :=
  match pktHello? with
  | none => ([], .nilPanic)
  | some pktHello =>
    match (challengePacket pktHello.sessionID nonceServer).Marshal with
    | .error _ => ([], .fail .marshalFailed)
    | .ok challengeBytes =>
      match ReadExact stream HeaderSize with
      | none => ([challengeBytes], .fail .readAnswerHeaderFailed)
      | some (bufHeader, stream2) =>
        match UnmarshalHeader bufHeader with
        | .error _ => ([challengeBytes], .fail .readAnswerHeaderFailed)
        | .ok hdr =>
          if hdr.version ≠ FloVersion1 then
            ([challengeBytes], .fail .answerVersionUnsupported)
          else if hdr.type ≠ TypeAnswer then
            ([challengeBytes], .fail .answerIncorrectType)
          else
            match ReadExact stream2 (PktAnswerSize - HeaderSize) with
            | none => ([challengeBytes], .fail .readAnswerFailed)
            | some (bufAnswer, _) =>
              match UnmarshalAnswer (bufHeader ++ bufAnswer) with
              | .error e => ([challengeBytes], .fail (.unmarshalAnswerFailed e))
              | .ok pktAnswer =>
                if VerifyAuthHash bufHello nonceServer psk pktAnswer.authHash
                then admitAndServe slotAvailable AuthHMAC (some pktHello)
                       [challengeBytes]
                else
                  match (ackPacket pktHello.sessionID AuthHMAC
                          AckAuthFailed).Marshal with
                  | .error _ => ([challengeBytes], .fail .marshalFailed)
                  | .ok ackBytes =>
                      ([challengeBytes, ackBytes], .fail .authFailed)

/-- handleV1 (tcp.go lines 269-357): type check, recvHelloV1 with its error
left unchecked, optional authentication, admission, acknowledgement and the
transfer phase. -/
def handleV1 (authEnabled slotAvailable : Bool) (psk nonceServer : List Nat)
    (headerBuf : List Nat) (header : Header) (stream : List Nat) :
    List (List Nat) × V1Outcome :=
  if header.type ≠ TypeHello then ([], .fail .incorrectType)
  else
    let helloRes : Except HandlerErr (PktHello × List Nat) :=
      match ReadExact stream (PktHelloSize - HeaderSize) with
      | none => .error .readHelloFailed
      | some (body, _) =>
        match UnmarshalHello (headerBuf ++ body) with
        | .error e => .error (.unmarshalHelloFailed e)
        | .ok pkt => .ok (pkt, headerBuf ++ body)
    let stream1 := stream.drop (PktHelloSize - HeaderSize)
    let pktHello? : Option PktHello :=
      match helloRes with
      | .ok (p, _) => some p
      | .error _ => none
    let bufHello : List Nat :=
      match helloRes with
      | .ok (_, b) => b
      | .error _ => []
    if authEnabled then
      handleAuthV1 psk nonceServer bufHello pktHello? stream1 slotAvailable
    else
      admitAndServe slotAvailable AuthNone pktHello? []

/-! ## Claim theorems -/

/-- C4: ComputeAuthHash(hello_bytes, server_nonce, psk) equals HMAC-SHA256
keyed with psk over hello_bytes plus server_nonce concatenated, verification
of the computed hash succeeds, and verification succeeds exactly on the
computed value (so any differing received hash is rejected). -/
theorem C4_auth_hash_correct :
    (∀ hello nonce psk : List Nat,
      ComputeAuthHash hello nonce psk = hmacSha256 psk (hello ++ nonce)) ∧
    (∀ hello nonce psk : List Nat,
      VerifyAuthHash hello nonce psk (ComputeAuthHash hello nonce psk) = true) ∧
    (∀ hello nonce psk received : List Nat,
      VerifyAuthHash hello nonce psk received = true ↔
        received = ComputeAuthHash hello nonce psk) := by
  refine ⟨computeAuthHash_eq_hmac, ?_, verifyAuthHash_true_iff⟩
  intro hello nonce psk
  rw [verifyAuthHash_true_iff]

/-- C5: TransferData returns nil whatever the stopping condition was, and
classifies the termination as premature exactly for a clean EOF with more
than the 250 ms grace left before the deadline, or for any other non-nil,
non-deadline-expiry error when the deadline is not within the grace. -/
theorem C5_transfer_returns_nil_and_classifies :
    ∀ (errStop : Option StopErr) (deadlineOk : Bool) (remaining : Int),
      (transferDataOutcome errStop deadlineOk remaining).1 = none ∧
      ((transferDataOutcome errStop deadlineOk remaining).2 = true ↔
        ((errStop = some .eofErr ∧ deadlineOk = true ∧
          transferGrace < remaining) ∨
         (errStop ≠ none ∧ errStop ≠ some .deadlineExceeded ∧
          errStop ≠ some .eofErr ∧
          ¬ (deadlineOk = true ∧ remaining ≤ transferGrace)))) := by
  intro e dok rem
  refine ⟨rfl, ?_⟩
  cases e with
  | none => simp [transferDataOutcome, classifyPremature]
  | some se =>
    cases se <;> cases dok <;>
      simp [transferDataOutcome, classifyPremature]

/-- C8: the comparison inside VerifyAuthHash runs for all 32 byte positions
regardless of the received hash, so its loop iteration count is independent
of the position of any mismatching byte. -/
theorem C8_verify_constant_time (hello nonce psk r1 r2 : List Nat)
    (h1 : r1.length = 32) (h2 : r2.length = 32) :
    VerifyAuthHashSteps hello nonce psk r1 = 32 ∧
    VerifyAuthHashSteps hello nonce psk r1 =
      VerifyAuthHashSteps hello nonce psk r2 := by
  have hs1 : VerifyAuthHashSteps hello nonce psk r1 = 32 := by
    unfold VerifyAuthHashSteps
    rw [constantTimeCompare_snd _ _ (by rw [computeAuthHash_length, h1]),
        computeAuthHash_length]
  have hs2 : VerifyAuthHashSteps hello nonce psk r2 = 32 := by
    unfold VerifyAuthHashSteps
    rw [constantTimeCompare_snd _ _ (by rw [computeAuthHash_length, h2]),
        computeAuthHash_length]
  exact ⟨hs1, by rw [hs1, hs2]⟩

/-- C8 witness: the constant iteration count at concrete inputs, one with a
mismatch in the first byte and one with a mismatch in the last. -/
theorem C8_witness :
    VerifyAuthHashSteps [] [] [] (List.replicate 32 0) = 32 ∧
    VerifyAuthHashSteps [] [] [] (List.replicate 31 0 ++ [255]) = 32 := by
  refine ⟨(C8_verify_constant_time [] [] [] (List.replicate 32 0)
    (List.replicate 31 0 ++ [255]) (by decide) (by decide)).1, ?_⟩
  have h := (C8_verify_constant_time [] [] [] (List.replicate 32 0)
    (List.replicate 31 0 ++ [255]) (by decide) (by decide))
  rw [← h.2]
  exact h.1

theorem hello_encode_length (p : PktHello) (hs : p.sessionID.length = 16)
    (hn : p.nonceClient.length = 16) (hm : p.header.magic = MAGIC) :
    p.encodeBytes.length = 63 := by
  simp [PktHello.encodeBytes, lePut_length, hs, hn, hm, MAGIC]

theorem challenge_encode_length (p : PktChallenge) (hs : p.sessionID.length = 16)
    (hn : p.nonceServer.length = 16) (hm : p.header.magic = MAGIC) :
    p.encodeBytes.length = 39 := by
  simp [PktChallenge.encodeBytes, hs, hn, hm, MAGIC]

theorem answer_encode_length (p : PktAnswer) (hs : p.sessionID.length = 16)
    (hh : p.authHash.length = 32) (hm : p.header.magic = MAGIC) :
    p.encodeBytes.length = 54 := by
  simp [PktAnswer.encodeBytes, hs, hh, hm, MAGIC]

theorem ack_encode_length (p : PktAck) (hs : p.sessionID.length = 16)
    (hm : p.header.magic = MAGIC) : p.encodeBytes.length = 24 := by
  simp [PktAck.encodeBytes, hs, hm, MAGIC]

theorem result_encode_length (p : PktResult) (hs : p.sessionID.length = 16)
    (hm : p.header.magic = MAGIC) : p.encodeBytes.length = 38 := by
  simp [PktResult.encodeBytes, lePut_length, hs, hm, MAGIC]

theorem marshal_ok_hello (p : PktHello) (hm : p.header.magic = MAGIC) :
    p.Marshal = .ok p.encodeBytes := by
  unfold PktHello.Marshal
  rw [if_neg (not_not_intro hm)]

theorem marshal_ok_challenge (p : PktChallenge) (hm : p.header.magic = MAGIC) :
    p.Marshal = .ok p.encodeBytes := by
  unfold PktChallenge.Marshal
  rw [if_neg (not_not_intro hm)]

theorem marshal_ok_answer (p : PktAnswer) (hm : p.header.magic = MAGIC) :
    p.Marshal = .ok p.encodeBytes := by
  unfold PktAnswer.Marshal
  rw [if_neg (not_not_intro hm)]

theorem marshal_ok_ack (p : PktAck) (hm : p.header.magic = MAGIC) :
    p.Marshal = .ok p.encodeBytes := by
  unfold PktAck.Marshal
  rw [if_neg (not_not_intro hm)]

theorem marshal_ok_result (p : PktResult) (hm : p.header.magic = MAGIC) :
    p.Marshal = .ok p.encodeBytes := by
  unfold PktResult.Marshal
  rw [if_neg (not_not_intro hm)]

/-- C7: every decoder rejects any input whose length differs from its kind's
fixed size (HELLO 63, CHALLENGE 39, ANSWER 54, ACK 24, RESULT 38) with
InvalidPacketSize, and every encoder, on a packet with the correct magic,
produces a buffer of exactly that fixed size. -/
theorem C7_fixed_sizes :
    (∀ data : List Nat, data.length ≠ 63 →
      UnmarshalHello data = .error .invalidPacketSize) ∧
    (∀ data : List Nat, data.length ≠ 39 →
      UnmarshalChallenge data = .error .invalidPacketSize) ∧
    (∀ data : List Nat, data.length ≠ 54 →
      UnmarshalAnswer data = .error .invalidPacketSize) ∧
    (∀ data : List Nat, data.length ≠ 24 →
      UnmarshalAck data = .error .invalidPacketSize) ∧
    (∀ data : List Nat, data.length ≠ 38 →
      UnmarshalResult data = .error .invalidPacketSize) ∧
    (∀ p : PktHello, p.header.magic = MAGIC → p.sessionID.length = 16 →
      p.nonceClient.length = 16 →
      p.Marshal = .ok p.encodeBytes ∧ p.encodeBytes.length = 63) ∧
    (∀ p : PktChallenge, p.header.magic = MAGIC → p.sessionID.length = 16 →
      p.nonceServer.length = 16 →
      p.Marshal = .ok p.encodeBytes ∧ p.encodeBytes.length = 39) ∧
    (∀ p : PktAnswer, p.header.magic = MAGIC → p.sessionID.length = 16 →
      p.authHash.length = 32 →
      p.Marshal = .ok p.encodeBytes ∧ p.encodeBytes.length = 54) ∧
    (∀ p : PktAck, p.header.magic = MAGIC → p.sessionID.length = 16 →
      p.Marshal = .ok p.encodeBytes ∧ p.encodeBytes.length = 24) ∧
    (∀ p : PktResult, p.header.magic = MAGIC → p.sessionID.length = 16 →
      p.Marshal = .ok p.encodeBytes ∧ p.encodeBytes.length = 38) := by
  refine ⟨?_, ?_, ?_, ?_, ?_, ?_, ?_, ?_, ?_, ?_⟩
  · intro data h
    simp [UnmarshalHello, PktHelloSize, h]
  · intro data h
    simp [UnmarshalChallenge, PktChallengeSize, h]
  · intro data h
    simp [UnmarshalAnswer, PktAnswerSize, h]
  · intro data h
    simp [UnmarshalAck, PktAckSize, h]
  · intro data h
    simp [UnmarshalResult, PktResultSize, h]
  · intro p hm hs hn
    exact ⟨marshal_ok_hello p hm, hello_encode_length p hs hn hm⟩
  · intro p hm hs hn
    exact ⟨marshal_ok_challenge p hm, challenge_encode_length p hs hn hm⟩
  · intro p hm hs hh
    exact ⟨marshal_ok_answer p hm, answer_encode_length p hs hh hm⟩
  · intro p hm hs
    exact ⟨marshal_ok_ack p hm, ack_encode_length p hs hm⟩
  · intro p hm hs
    exact ⟨marshal_ok_result p hm, result_encode_length p hs hm⟩

/-- C7 witness: a wrong-size reject and an exact-size encode at concrete
inputs. -/
theorem C7_witness :
    UnmarshalHello [70, 76, 79, 0] = .error .invalidPacketSize ∧
    sampleHello.Marshal = .ok sampleHello.encodeBytes ∧
    sampleHello.encodeBytes.length = 63 := by
  refine ⟨C7_fixed_sizes.1 [70, 76, 79, 0] (by decide), ?_, ?_⟩
  · exact (C7_fixed_sizes.2.2.2.2.2.1 sampleHello (by decide) (by decide)
      (by decide)).1
  · exact (C7_fixed_sizes.2.2.2.2.2.1 sampleHello (by decide) (by decide)
      (by decide)).2

def c9Ack : PktAck :=
  { header := { magic := MAGIC, version := 1, type := 9 },
    sessionID := sampleSid, auth := 0, code := 0 }

/-- C9: for every packet kind, Marshal checks only the magic: it returns
InvalidMagic exactly when the magic field differs from F L O 0x00 and
otherwise succeeds whatever the other fields hold; consequently an encoded
packet need not be accepted by the corresponding decoder (witnessed by an
ACK whose type byte is 9). -/
theorem C9_marshal_only_checks_magic :
    (∀ p : PktHello, (p.Marshal = .error .invalidMagic ↔
        p.header.magic ≠ MAGIC) ∧
      (p.header.magic = MAGIC → p.Marshal = .ok p.encodeBytes)) ∧
    (∀ p : PktChallenge, (p.Marshal = .error .invalidMagic ↔
        p.header.magic ≠ MAGIC) ∧
      (p.header.magic = MAGIC → p.Marshal = .ok p.encodeBytes)) ∧
    (∀ p : PktAnswer, (p.Marshal = .error .invalidMagic ↔
        p.header.magic ≠ MAGIC) ∧
      (p.header.magic = MAGIC → p.Marshal = .ok p.encodeBytes)) ∧
    (∀ p : PktAck, (p.Marshal = .error .invalidMagic ↔
        p.header.magic ≠ MAGIC) ∧
      (p.header.magic = MAGIC → p.Marshal = .ok p.encodeBytes)) ∧
    (∀ p : PktResult, (p.Marshal = .error .invalidMagic ↔
        p.header.magic ≠ MAGIC) ∧
      (p.header.magic = MAGIC → p.Marshal = .ok p.encodeBytes)) ∧
    (c9Ack.Marshal = .ok c9Ack.encodeBytes ∧
     UnmarshalAck c9Ack.encodeBytes = .error .incorrectType) := by
  refine ⟨?_, ?_, ?_, ?_, ?_, by decide⟩ <;>
  · intro p
    constructor
    · by_cases hm : p.header.magic = MAGIC
      · simp [PktHello.Marshal, PktChallenge.Marshal, PktAnswer.Marshal,
          PktAck.Marshal, PktResult.Marshal, hm]
      · simp [PktHello.Marshal, PktChallenge.Marshal, PktAnswer.Marshal,
          PktAck.Marshal, PktResult.Marshal, hm]
    · intro hm
      first
      | exact marshal_ok_hello p hm
      | exact marshal_ok_challenge p hm
      | exact marshal_ok_answer p hm
      | exact marshal_ok_ack p hm
      | exact marshal_ok_result p hm

def cexHello9 : PktHello :=
  { header := { magic := MAGIC, version := 250, type := 77 },
    sessionID := sampleSid, transport := 9, security := 9, direction := 9,
    flags := 7, chunkSize := 5, durationMS := 1, warmupMS := 0,
    nonceClient := List.replicate 16 0 }

/-- C9 witness: Marshal succeeds at a concrete packet with correct magic,
arbitrary version and type bytes, and out-of-range payload fields. -/
theorem C9_witness :
    cexHello9.Marshal = .ok cexHello9.encodeBytes := by
  exact (C9_marshal_only_checks_magic.1 cexHello9).2 (by decide)

/-- C10: UnmarshalHeader rejects with InvalidPacketSize exactly the inputs
shorter than 6 bytes; on longer input it looks only at the first 6 bytes,
succeeding when the first four are the magic and failing with InvalidMagic
otherwise. -/
theorem C10_header_decoder :
    (∀ data : List Nat,
      UnmarshalHeader data = .error .invalidPacketSize ↔ data.length < 6) ∧
    (∀ data : List Nat, 6 ≤ data.length →
      UnmarshalHeader data = UnmarshalHeader (data.take 6)) ∧
    (∀ data : List Nat, 6 ≤ data.length → data.take 4 = MAGIC →
      UnmarshalHeader data = .ok { magic := data.take 4,
                                   version := byteAt data 4,
                                   type := byteAt data 5 }) ∧
    (∀ data : List Nat, 6 ≤ data.length → data.take 4 ≠ MAGIC →
      UnmarshalHeader data = .error .invalidMagic) := by
  have hok : ∀ data : List Nat, 6 ≤ data.length → data.take 4 = MAGIC →
      UnmarshalHeader data = .ok { magic := data.take 4,
                                   version := byteAt data 4,
                                   type := byteAt data 5 } := by
    intro data hlen hmg
    unfold UnmarshalHeader
    rw [if_neg (by simp [HeaderSize]; omega), if_neg (not_not_intro hmg)]
  have hbad : ∀ data : List Nat, 6 ≤ data.length → data.take 4 ≠ MAGIC →
      UnmarshalHeader data = .error .invalidMagic := by
    intro data hlen hmg
    unfold UnmarshalHeader
    rw [if_neg (by simp [HeaderSize]; omega), if_pos hmg]
  refine ⟨?_, ?_, hok, hbad⟩
  · intro data
    constructor
    · intro h
      by_contra hlen
      push_neg at hlen
      by_cases hmg : data.take 4 = MAGIC
      · rw [hok data hlen hmg] at h
        exact absurd h (by simp)
      · rw [hbad data hlen hmg] at h
        exact absurd h (by simp)
    · intro h
      unfold UnmarshalHeader
      rw [if_pos (by simpa [HeaderSize] using h)]
  · intro data hlen
    by_cases hmg : data.take 4 = MAGIC
    · rw [hok data hlen hmg,
          hok (data.take 6) (by simp; omega) (by rw [take4_of_take6]; exact hmg)]
      rw [take4_of_take6, byteAt_take data 6 4 (by omega),
          byteAt_take data 6 5 (by omega)]
    · rw [hbad data hlen hmg,
          hbad (data.take 6) (by simp; omega) (by rw [take4_of_take6]; exact hmg)]

def c10Data : List Nat := [70, 76, 79, 0, 1, 2, 3, 4, 5]

/-- C10 witness: a 9-byte input with valid magic decodes, and the trailing
bytes are ignored. -/
theorem C10_witness :
    UnmarshalHeader c10Data = .ok { magic := c10Data.take 4,
                                    version := byteAt c10Data 4,
                                    type := byteAt c10Data 5 } ∧
    UnmarshalHeader c10Data = UnmarshalHeader (c10Data.take 6) := by
  exact ⟨C10_header_decoder.2.2.1 c10Data (by decide) (by decide),
         C10_header_decoder.2.1 c10Data (by decide)⟩

def cexHello : PktHello :=
  { header := createHeader TypeHello, sessionID := sampleSid,
    transport := TransportTCP, security := SecurityNone,
    direction := DirectionBidi, flags := 0, chunkSize := 5,
    durationMS := 5000, warmupMS := 0, nonceClient := sampleNonce }

/-- C2 counterexample: a HELLO with chunk_size 5 has the correct magic, so
Marshal encodes it, but the decoder rejects the encoding with
InvalidChunkSize, refuting decode(encode(p)) = p as stated for every
packet. -/
theorem C2_counterexample :
    cexHello.Marshal = .ok cexHello.encodeBytes ∧
    UnmarshalHello cexHello.encodeBytes = .error .invalidChunkSize ∧
    UnmarshalHello cexHello.encodeBytes ≠ .ok cexHello := by decide

/-- C2 amended: for every packet kind, decode(encode(p)) = p for every
packet whose fields satisfy the constraints the corresponding decoder
checks (correct magic and type byte, and for HELLO the enum, flag, range
and nonce constraints), and encode(decode(bytes)) = bytes for every byte
string that decodes successfully. -/
theorem C2_codec_roundtrip :
    (∀ p : PktHello, HelloValid p →
      p.Marshal = .ok p.encodeBytes ∧ UnmarshalHello p.encodeBytes = .ok p) ∧
    (∀ (data : List Nat) (p : PktHello), (∀ b ∈ data, b < 256) →
      UnmarshalHello data = .ok p → p.Marshal = .ok data) ∧
    (∀ p : PktChallenge, ChallengeValid p →
      p.Marshal = .ok p.encodeBytes ∧
      UnmarshalChallenge p.encodeBytes = .ok p) ∧
    (∀ (data : List Nat) (p : PktChallenge),
      UnmarshalChallenge data = .ok p → p.Marshal = .ok data) ∧
    (∀ p : PktAnswer, AnswerValid p →
      p.Marshal = .ok p.encodeBytes ∧ UnmarshalAnswer p.encodeBytes = .ok p) ∧
    (∀ (data : List Nat) (p : PktAnswer),
      UnmarshalAnswer data = .ok p → p.Marshal = .ok data) ∧
    (∀ p : PktAck, AckValid p →
      p.Marshal = .ok p.encodeBytes ∧ UnmarshalAck p.encodeBytes = .ok p) ∧
    (∀ (data : List Nat) (p : PktAck),
      UnmarshalAck data = .ok p → p.Marshal = .ok data) ∧
    (∀ p : PktResult, ResultValid p →
      p.Marshal = .ok p.encodeBytes ∧ UnmarshalResult p.encodeBytes = .ok p) ∧
    (∀ (data : List Nat) (p : PktResult), (∀ b ∈ data, b < 256) →
      UnmarshalResult data = .ok p → p.Marshal = .ok data) := by
  refine ⟨?_, marshal_unmarshalHello, ?_, marshal_unmarshalChallenge,
          ?_, marshal_unmarshalAnswer, ?_, marshal_unmarshalAck,
          ?_, marshal_unmarshalResult⟩
  · intro p h
    exact ⟨marshal_ok_hello p h.1, unmarshalHello_encode p h⟩
  · intro p h
    exact ⟨marshal_ok_challenge p h.1, unmarshalChallenge_encode p h⟩
  · intro p h
    exact ⟨marshal_ok_answer p h.1, unmarshalAnswer_encode p h⟩
  · intro p h
    exact ⟨marshal_ok_ack p h.1, unmarshalAck_encode p h⟩
  · intro p h
    exact ⟨marshal_ok_result p h.1, unmarshalResult_encode p h⟩

/-- C2 witness: the round trips at concrete packets. -/
theorem C2_witness :
    UnmarshalHello sampleHello.encodeBytes = .ok sampleHello ∧
    (ackPacket sampleSid 0 0).Marshal =
      .ok (ackPacket sampleSid 0 0).encodeBytes := by
  constructor
  · exact (C2_codec_roundtrip.1 sampleHello (by unfold HelloValid; decide)).2
  · exact C2_codec_roundtrip.2.2.2.2.2.2.2.1
      (ackPacket sampleSid 0 0).encodeBytes (ackPacket sampleSid 0 0)
      (by decide)

theorem unmarshalHeader_ok (d : List Nat) (hlen : 6 ≤ d.length)
    (hmg : d.take 4 = MAGIC) :
    UnmarshalHeader d = .ok { magic := d.take 4, version := byteAt d 4,
                              type := byteAt d 5 } := by
  unfold UnmarshalHeader
  rw [if_neg (by simp [HeaderSize]; omega), if_neg (not_not_intro hmg)]

theorem hello_decode_conditions (data : List Nat) (p : PktHello)
    (h : UnmarshalHello data = .ok p) :
    (byteAt data 22 = TransportTCP ∨ byteAt data 22 = TransportUDP ∨
     byteAt data 22 = TransportSCTP) ∧
    (byteAt data 23 = SecurityNone ∨ byteAt data 23 = SecurityTLS) ∧
    (byteAt data 24 = DirectionBidi ∨ byteAt data 24 = DirectionUpload ∨
     byteAt data 24 = DirectionDownload) ∧
    leUint (byteSlice data 25 27) = 0 ∧
    10 ≤ leUint (byteSlice data 27 31) ∧
    leUint (byteSlice data 27 31) ≤ 10000000 ∧
    1000 ≤ leUint (byteSlice data 31 39) ∧
    ¬ (byteSlice data 47 63).foldl (fun x y => x ||| y) 0 = 0 := by
  unfold UnmarshalHello at h
  split at h
  · exact Except.noConfusion h
  split at h
  · exact Except.noConfusion h
  split at h
  · exact Except.noConfusion h
  dsimp only at h
  split at h
  · exact Except.noConfusion h
  rename_i htr
  split at h
  · exact Except.noConfusion h
  rename_i hse
  split at h
  · exact Except.noConfusion h
  rename_i hdi
  split at h
  · exact Except.noConfusion h
  rename_i hfl
  split at h
  · exact Except.noConfusion h
  rename_i hck
  split at h
  · exact Except.noConfusion h
  rename_i hdu
  split at h
  · exact Except.noConfusion h
  rename_i hnz
  push_neg at hfl hck hdu
  exact ⟨not_not.mp htr, not_not.mp hse, not_not.mp hdi, hfl, hck.1,
         by omega, by omega, hnz⟩

/-- A 63-byte HELLO image with a valid version-1 header and the given
payload fields, used for the concrete validation cases. -/
def helloBytesEx (tr se di flags chunk dur : Nat) (nonce : List Nat) :
    List Nat :=
  MAGIC ++ [1, 1] ++ sampleSid ++ [tr, se, di] ++ lePut 2 flags ++
  lePut 4 chunk ++ lePut 8 dur ++ lePut 8 0 ++ nonce

/-- C3: a 63-byte HELLO with valid header of type HELLO decodes exactly when
transport, security and direction are in range, flags are zero, chunk size
is in [10, 10000000], duration is at least 1000 and the client nonce is not
all zeros; the boundary and violation cases return the corresponding
errors. -/
theorem C3_hello_field_validation :
    (∀ data : List Nat, data.length = 63 → data.take 4 = MAGIC →
      byteAt data 5 = TypeHello →
      ((∃ p, UnmarshalHello data = .ok p) ↔
        ((byteAt data 22 = TransportTCP ∨ byteAt data 22 = TransportUDP ∨
          byteAt data 22 = TransportSCTP) ∧
         (byteAt data 23 = SecurityNone ∨ byteAt data 23 = SecurityTLS) ∧
         (byteAt data 24 = DirectionBidi ∨ byteAt data 24 = DirectionUpload ∨
          byteAt data 24 = DirectionDownload) ∧
         leUint (byteSlice data 25 27) = 0 ∧
         10 ≤ leUint (byteSlice data 27 31) ∧
         leUint (byteSlice data 27 31) ≤ 10000000 ∧
         1000 ≤ leUint (byteSlice data 31 39) ∧
         ¬ ∀ b ∈ byteSlice data 47 63, b = 0))) ∧
    UnmarshalHello (helloBytesEx 1 0 0 0 9 5000 sampleNonce) =
      .error .invalidChunkSize ∧
    (UnmarshalHello (helloBytesEx 1 0 0 0 10 5000 sampleNonce)).isOk = true ∧
    (UnmarshalHello
      (helloBytesEx 1 0 0 0 10000000 5000 sampleNonce)).isOk = true ∧
    UnmarshalHello (helloBytesEx 1 0 0 0 10000001 5000 sampleNonce) =
      .error .invalidChunkSize ∧
    UnmarshalHello (helloBytesEx 1 0 0 0 1024 999 sampleNonce) =
      .error .invalidDuration ∧
    (UnmarshalHello (helloBytesEx 1 0 0 0 1024 1000 sampleNonce)).isOk = true ∧
    UnmarshalHello (helloBytesEx 1 0 0 3 1024 5000 sampleNonce) =
      .error .invalidFlags ∧
    UnmarshalHello (helloBytesEx 1 0 0 0 1024 5000 (List.replicate 16 0)) =
      .error .invalidNonce ∧
    UnmarshalHello (helloBytesEx 4 0 0 0 1024 5000 sampleNonce) =
      .error .unsupportedTransport ∧
    UnmarshalHello (helloBytesEx 1 2 0 0 1024 5000 sampleNonce) =
      .error .unsupportedSecurity ∧
    UnmarshalHello (helloBytesEx 1 0 3 0 1024 5000 sampleNonce) =
      .error .unsupportedDirection := by
  refine ⟨?_, by decide, by decide, by decide, by decide, by decide,
          by decide, by decide, by decide, by decide, by decide, by decide⟩
  intro data hlen hmg hty
  have hH : UnmarshalHeader (byteSlice data 0 HeaderSize) =
      .ok { magic := data.take 4, version := byteAt data 4,
            type := byteAt data 5 } := by
    rw [byteSlice_header,
        unmarshalHeader_ok (data.take 6) (by simp; omega)
          (by rw [take4_of_take6]; exact hmg),
        take4_of_take6, byteAt_take data 6 4 (by omega),
        byteAt_take data 6 5 (by omega)]
  constructor
  · rintro ⟨p, hp⟩
    have hc := hello_decode_conditions data p hp
    refine ⟨hc.1, hc.2.1, hc.2.2.1, hc.2.2.2.1, hc.2.2.2.2.1,
            hc.2.2.2.2.2.1, hc.2.2.2.2.2.2.1, ?_⟩
    have hnz := hc.2.2.2.2.2.2.2
    rw [foldl_lor_eq_zero] at hnz
    simp only [not_and] at hnz
    intro hall
    exact hnz trivial hall
  · rintro ⟨htr, hse, hdi, hfl, hck1, hck2, hdu, hnz⟩
    have hnzf : ¬ (byteSlice data 47 63).foldl (fun x y => x ||| y) 0 = 0 := by
      rw [foldl_lor_eq_zero]
      intro hc
      exact hnz hc.2
    refine ⟨{ header := { magic := data.take 4, version := byteAt data 4,
                          type := byteAt data 5 },
              sessionID := byteSlice data 6 22, transport := byteAt data 22,
              security := byteAt data 23, direction := byteAt data 24,
              flags := leUint (byteSlice data 25 27),
              chunkSize := leUint (byteSlice data 27 31),
              durationMS := leUint (byteSlice data 31 39),
              warmupMS := leUint (byteSlice data 39 47),
              nonceClient := byteSlice data 47 63 }, ?_⟩
    unfold UnmarshalHello
    rw [if_neg (by simp [PktHelloSize, hlen]), hH]
    dsimp only
    rw [if_neg (by simp [hty]), if_neg (not_not_intro htr),
        if_neg (not_not_intro hse), if_neg (not_not_intro hdi),
        if_neg (not_not_intro hfl), if_neg (by omega), if_neg (by omega),
        if_neg hnzf]

/-- C3 witness: a concrete valid HELLO image decodes successfully. -/
theorem C3_witness :
    (UnmarshalHello sampleHello.encodeBytes).isOk = true := by
  obtain ⟨p, hp⟩ := (C3_hello_field_validation.1 sampleHello.encodeBytes
    (by decide) (by decide) (by decide)).mpr (by decide)
  rw [hp]
  rfl

theorem runEvents_append_singleton (s : XferState)
    (tr : List (Nat × PumpEvent)) (te : Nat × PumpEvent) :
    runEvents s (tr ++ [te]) = stepEvent (runEvents s tr) te.2 := by
  unfold runEvents
  rw [List.foldl_append]
  rfl

/-- C6: the pumps add to the byte counters only when the counting gate is
true, and since only the reporter's gate-open action (performed once the
warmup has elapsed) sets the gate, any event that happens strictly before
the warmup end leaves both counters unchanged. -/
theorem C6_warmup_gate :
    (∀ (s : XferState) (n : Nat),
      ((stepEvent s (.writeOk n)).bytesSent ≠ s.bytesSent ∨
       (stepEvent s (.readOk n)).bytesRcvd ≠ s.bytesRcvd) →
      s.counting = true) ∧
    (∀ (tr : List (Nat × PumpEvent)) (W : Nat),
      tr.Pairwise (fun a b => a.1 ≤ b.1) →
      (∀ te ∈ tr, te.2 = PumpEvent.gateOpen → W ≤ te.1) →
      ∀ (i : Nat) (hi : i < tr.length), (tr.get ⟨i, hi⟩).1 < W →
        (runEvents initialXferState (tr.take (i+1))).bytesSent =
          (runEvents initialXferState (tr.take i)).bytesSent ∧
        (runEvents initialXferState (tr.take (i+1))).bytesRcvd =
          (runEvents initialXferState (tr.take i)).bytesRcvd) := by
  constructor
  · intro s n h
    by_contra hc
    have hs : s.counting = false := by
      cases hcv : s.counting
      · rfl
      · exact absurd hcv hc
    rcases h with h | h
    · exact h (stepEvent_counters_of_not_counting s (.writeOk n) hs).1
    · exact h (stepEvent_counters_of_not_counting s (.readOk n) hs).2
  · intro tr W hmono hgate i hi hlt
    have hng : ∀ te ∈ tr.take i, te.2 ≠ PumpEvent.gateOpen := by
      intro te hte hgo
      obtain ⟨j, hje⟩ := List.mem_iff_get.mp hte
      have hjlt : (j : Nat) < i :=
        Nat.lt_of_lt_of_le j.isLt (List.length_take_le i tr)
      have hjtr : (j : Nat) < tr.length := by omega
      have hget : (tr.take i).get j = tr.get ⟨j, hjtr⟩ := by
        simp [List.getElem_take]
      have hle : (tr.get ⟨(j : Nat), hjtr⟩).1 ≤ (tr.get ⟨i, hi⟩).1 :=
        List.pairwise_iff_get.mp hmono ⟨j, hjtr⟩ ⟨i, hi⟩ hjlt
      have hW : W ≤ te.1 := hgate te (List.mem_of_mem_take hte) hgo
      rw [← hje, hget] at hW
      omega
    have hcf := runEvents_counting_false initialXferState (tr.take i) rfl hng
    have hts : tr.take (i+1) = tr.take i ++ [tr.get ⟨i, hi⟩] := by
      rw [List.take_succ]
      congr 1
      simp [List.getElem?_eq_getElem hi]
    rw [hts, runEvents_append_singleton]
    exact ⟨(stepEvent_counters_of_not_counting _ _ hcf).1,
           (stepEvent_counters_of_not_counting _ _ hcf).2⟩

def c6Trace : List (Nat × PumpEvent) :=
  [(0, .writeOk 5), (3, .readOk 2), (10, .gateOpen), (11, .writeOk 7)]

/-- C6 witness: in a trace with a write and a read before the warmup end at
time 10, the first two events leave the counters unchanged. -/
theorem C6_witness :
    ((runEvents initialXferState (c6Trace.take 1)).bytesSent =
       (runEvents initialXferState (c6Trace.take 0)).bytesSent ∧
     (runEvents initialXferState (c6Trace.take 1)).bytesRcvd =
       (runEvents initialXferState (c6Trace.take 0)).bytesRcvd) ∧
    ((runEvents initialXferState (c6Trace.take 2)).bytesSent =
       (runEvents initialXferState (c6Trace.take 1)).bytesSent ∧
     (runEvents initialXferState (c6Trace.take 2)).bytesRcvd =
       (runEvents initialXferState (c6Trace.take 1)).bytesRcvd) := by
  constructor
  · exact C6_warmup_gate.2 c6Trace 10 (by decide) (by decide) 0
      (by decide) (by decide)
  · exact C6_warmup_gate.2 c6Trace 10 (by decide) (by decide) 1
      (by decide) (by decide)

def c1HeaderBuf : List Nat := [70, 76, 79, 0, 1, 1]

def c1Header : Header := { magic := MAGIC, version := 1, type := 1 }

/-- A 57-byte HELLO remainder whose flags field is 1, so that the
reassembled 63-byte packet fails to decode with InvalidFlags. -/
def c1Body : List Nat :=
  sampleSid ++ [1, 0, 0] ++ lePut 2 1 ++ lePut 4 1024 ++ lePut 8 5000 ++
  lePut 8 0 ++ sampleNonce

/-- C1: when the HELLO body reads completely but fails to decode, handleV1
does not fail with the decode error: recvHelloV1's error is never checked
(tcp.go line 276), the nil pktHello flows on, and the session dies with a
nil-pointer dereference panic: with authentication enabled while building
the challenge, and with it disabled while building the acknowledgement,
in every case before any packet is sent. -/
theorem C1_hello_decode_failure_panics :
    UnmarshalHeader c1HeaderBuf = .ok c1Header ∧
    UnmarshalHello (c1HeaderBuf ++ c1Body) = .error .invalidFlags ∧
    handleV1 false true [] sampleNonce c1HeaderBuf c1Header c1Body =
      ([], .nilPanic) ∧
    handleV1 false false [] sampleNonce c1HeaderBuf c1Header c1Body =
      ([], .nilPanic) ∧
    handleV1 true true [112, 115, 107] sampleNonce c1HeaderBuf c1Header
      c1Body = ([], .nilPanic) ∧
    handleV1 true false [112, 115, 107] sampleNonce c1HeaderBuf c1Header
      c1Body = ([], .nilPanic) := by decide
